import Mathlib

/-!
Shallow embedding of the lolbaninfo koishi plugin (src/src/index.ts, the
transient-retry variant, and src/unnamed/part_000, the log-buffer variant)
together with proofs about its retry policy, response classifier, log
buffer, identifier validator and reply formatter.
-/

namespace LolBanInfo

/-! ## Data model (Config, Session, parsed query result) -/

inductive ReplyMode
  | mention
  | quote
  | normal
deriving DecidableEq

structure ApiConfig where
  apiUrl : String
  apiToken : String
deriving DecidableEq

structure ReplyConfig where
  replyMode : ReplyMode
deriving DecidableEq

structure RetryConfig where
  retryTimes : Nat
  retryDelay : Nat
deriving DecidableEq

/-- Nested plugin configuration of src/src/index.ts. -/
structure Config where
  api : ApiConfig
  reply : ReplyConfig
  retry : RetryConfig
deriving DecidableEq

/-- The part of the koishi session the plugin reads. -/
structure Session where
  userId : String
  messageId : String
deriving DecidableEq

/-- The optional data object of the parsed JSON body. -/
structure BanData where
  banmsg : Option String
deriving DecidableEq

/-- Parsed JSON body of the remote response. -/
structure QueryResult where
  code : Int
  msg : Option String
  data : Option BanData
deriving DecidableEq

/-- JavaScript string defaulting, "x || d": an absent or empty string is
falsy and is replaced by the default. -/
def jsOr (m : Option String) (d : String) : String :=
  match m with
  | none => d
  | some s => if s = "" then d else s

/-! ## Identifier validator (isValidQQ)

The source tests the string against a regular expression matching, between
anchors, five to thirteen ASCII decimal digits.  `matchDigitsRange cs lo hi`
is the matcher for that anchored digit-run pattern on the character list. -/

def matchDigitsRange : List Char → Nat → Nat → Bool
  | [], lo, _ => lo == 0
  | c :: cs, lo, hi =>
    match hi with
    | 0 => false
    | hi1 + 1 => c.isDigit && matchDigitsRange cs (lo - 1) hi1

def isValidQQ (qq : String) : Bool :=
  matchDigitsRange qq.data 5 13

/-! ## Retryability (the transient-retry variant)

In the catch branch, the source first computes
status = error.response?.status || 未知状态 — a missing (or zero, hence
falsy) numeric status is replaced by the non-empty fallback string — and
then tests status >= 500 (false on the fallback string: NaN comparison),
!status (the truthiness test), and membership of error.code in
ECONNRESET / ETIMEDOUT. -/

inductive JsStatus
  | num (n : Nat)
  | unknownText
deriving DecidableEq

/-- status = error.response?.status || fallback-string. -/
def extractStatus : Option Nat → JsStatus
  | some n => if n = 0 then JsStatus.unknownText else JsStatus.num n
  | none => JsStatus.unknownText

/-- status >= 500 in JavaScript: on the fallback string the comparison
goes through NaN and is false. -/
def statusGE500 : JsStatus → Bool
  | JsStatus.num n => 500 ≤ n
  | JsStatus.unknownText => false

/-- !status in JavaScript: the number 0 is falsy, the non-empty fallback
string is truthy. -/
def statusFalsy : JsStatus → Bool
  | JsStatus.num n => n == 0
  | JsStatus.unknownText => false

/-- isRetryable of src/src/index.ts, on the raw optional HTTP status of the
error and the optional error code. -/
def isRetryable (st : Option Nat) (ecode : Option String) : Bool :=
  let status := extractStatus st
  statusGE500 status || statusFalsy status ||
    (ecode == some "ECONNRESET" || ecode == some "ETIMEDOUT")

/-- The retryability predicate of the spec (Policy A, transient-fault
retry): status at least 500, or status absent, or a connection-reset or
timeout error code. -/
def specRetryableA (st : Option Nat) (ecode : Option String) : Bool :=
  (match st with
   | some n => 500 ≤ n
   | none => true) ||
    (ecode == some "ECONNRESET" || ecode == some "ETIMEDOUT")

/-! ## Response classifier

The switch over result.code in the 查封号 action of src/src/index.ts,
including the msg default computed just before it.  The multi-line reply
strings reproduce the template literals of the source, indentation
included. -/

def classifyResponse (qq : String) (result : QueryResult) : String :=
  let msg := jsOr result.msg "无返回信息"
  if result.code = 200 then
    let banInfo := jsOr (result.data.bind BanData.banmsg) "无详细封禁信息"
    "✅ 查询成功：" ++ msg ++ "\n\n               📝 详细信息：" ++ banInfo
  else if result.code = 400 then
    "❌ 查询失败 [错误码400]：" ++ msg ++ "（参数缺失，请检查配置）"
  else if result.code = 401 then
    "🔑 API Token 无效或未授权 [401]：" ++ msg ++ "并更新配置"
  else if result.code = 403 then
    "🛑 请求被拒绝 [403]：可能因查询过于频繁或IP受限\n\n               ⏳ 建议稍后再试，或联系 API 提供方"
  else if result.code = 404 then
    "❓ 未找到相关信息 [404]\n\n               📢 QQ " ++ qq ++ " 可能未绑定《英雄联盟》账号，或当前无封禁记录"
  else if result.code = 429 then
    "📢 API免费额度使用完毕或账号会员已经过期，请充值后使用"
  else if result.code = 500 then
    "🛠️ 服务器内部错误 [500]：" ++ msg ++ "\n\n               📡 问题出在 API 服务端，请稍后再试"
  else if result.code = 502 ∨ result.code = 503 ∨ result.code = 504 then
    "☁️ 服务暂时不可用 [" ++ toString result.code ++ "]：" ++ msg ++ "\n\n               🔌 可能是 API 服务维护或超载，请稍后重试"
  else
    "❗ 收到未知响应码 [" ++ toString result.code ++ "]：" ++ msg

/-- The codes handled by a non-default case of the switch. -/
def listedCodes : List Int := [200, 400, 401, 403, 404, 429, 500, 502, 503, 504]

/-! ## Retrying request loop

requestWithRetry of src/src/index.ts, as a state machine over a
prescribed sequence of attempt outcomes.  outcomes i is what the i-th
execution of the try body does (0-based): return a parsed response, or
throw an error carrying an optional HTTP status, an optional error code
and a message.  The run records an event trace (try-body entries and
sleeps) and the final outcome.  The fuel argument of the loop equals
retryTimes + 1 - attempt, so fuel running out is exactly the while
condition attempt <= retryTimes turning false. -/

inductive AttemptOutcome
  | success (r : QueryResult)
  | failure (st : Option Nat) (ecode : Option String) (emsg : String)
deriving DecidableEq

inductive ReqError
  | thrown (st : Option Nat) (ecode : Option String) (emsg : String)
  | exhausted
deriving DecidableEq

inductive RetryEvent
  | attempt (i : Nat)
  | sleep (ms : Nat)
deriving DecidableEq

structure RetryTrace where
  events : List RetryEvent
  result : Except ReqError QueryResult

def runRetryAux (retryTimes retryDelay : Nat) (outcomes : Nat → AttemptOutcome) :
    Nat → Nat → List RetryEvent → RetryTrace
  | 0, _, events => ⟨events, Except.error ReqError.exhausted⟩
  | fuel + 1, attempt, events =>
    match outcomes attempt with
    | AttemptOutcome.success r =>
        ⟨events ++ [RetryEvent.attempt attempt], Except.ok r⟩
    | AttemptOutcome.failure st ecode emsg =>
        if isRetryable st ecode = false ∨ retryTimes < attempt + 1 then
          ⟨events ++ [RetryEvent.attempt attempt],
            Except.error (ReqError.thrown st ecode emsg)⟩
        else
          runRetryAux retryTimes retryDelay outcomes fuel (attempt + 1)
            (events ++ [RetryEvent.attempt attempt, RetryEvent.sleep retryDelay])

def requestWithRetry (retryTimes retryDelay : Nat)
    (outcomes : Nat → AttemptOutcome) : RetryTrace :=
  runRetryAux retryTimes retryDelay outcomes (retryTimes + 1) 0 []

/-- Number of try-body entries recorded in a trace. -/
def countAttempts : List RetryEvent → Nat
  | [] => 0
  | RetryEvent.attempt _ :: rest => countAttempts rest + 1
  | RetryEvent.sleep _ :: rest => countAttempts rest

/-- The i-th attempt throws an error the code classifies as retryable. -/
def retryableFailureAt (outcomes : Nat → AttemptOutcome) (i : Nat) : Prop :=
  ∃ st ecode emsg, outcomes i = AttemptOutcome.failure st ecode emsg ∧
    isRetryable st ecode = true

/-! ## Bounded log buffer (the log-buffer variant, src/unnamed/part_000)

addLogAndClean formats the content with a timestamp, pushes it, and when
the length exceeds maxCount splices the oldest length - maxCount entries
off the front.  The local timestamp is passed in as a string. -/

def formatLogEntry (ts content : String) : String :=
  "[" ++ ts ++ "] " ++ content

def addLogAndClean (ts content : String) (maxCount : Nat)
    (logCache : List String) : List String :=
  let cache := logCache ++ [formatLogEntry ts content]
  if maxCount < cache.length then cache.drop (cache.length - maxCount)
  else cache

/-- Folding a sequence of timestamped contents through addLogAndClean. -/
def addAll (maxCount : Nat) (logCache : List String)
    (entries : List (String × String)) : List String :=
  entries.foldl (fun buf e => addLogAndClean e.1 e.2 maxCount buf) logCache

/-! ## Reply formatter

formatReplyMessage of both variants: two sequential ifs compute the
message prefix from the reply mode; the mention variant of
src/src/index.ts appends the character reference for a carriage return
after the at-element, while src/unnamed/part_000 appends a newline
character.  hAt and hQuote model the serialization of the koishi at- and
quote-elements built from the recipient and the source message id. -/

def hAt (userId : String) : String :=
  "<at id=\"" ++ userId ++ "\"/>"

def hQuote (messageId : String) : String :=
  "<quote id=\"" ++ messageId ++ "\"/>"

/-- formatReplyMessage of src/src/index.ts (line break written as the
character reference for a carriage return). -/
def formatReplyMessage (session : Session) (message : String)
    (config : Config) : String :=
  let p0 := ""
  let p1 := if config.reply.replyMode = ReplyMode.mention
    then hAt session.userId ++ "&#13;" else p0
  let p2 := if config.reply.replyMode = ReplyMode.quote
    then hQuote session.messageId else p1
  p2 ++ message

/-- formatReplyMessage of src/unnamed/part_000 (line break written as a
newline character; flat configuration, only the reply mode matters). -/
def formatReplyMessageLogVariant (session : Session) (message : String)
    (replyMode : ReplyMode) : String :=
  let p0 := ""
  let p1 := if replyMode = ReplyMode.mention
    then hAt session.userId ++ "\n" else p0
  let p2 := if replyMode = ReplyMode.quote
    then hQuote session.messageId else p1
  p2 ++ message

/-! ## The 查封号 command action (src/src/index.ts)

Validation happens before the try block; the try block runs the retrying
request and, on a parsed response, the classifier; the catch clause turns
every error thrown by the request pipeline into a fixed user-facing
string.  Every branch returns through formatReplyMessage. -/

def validationErrorBody (qq : String) : String :=
  "❌ QQ号格式错误：" ++ qq ++ "（需5-13位数字）"

def catchBody : String :=
  "⚠️ 查询过程中发生错误\n\n           📡 请检查网络、API 地址及 Token 配置"

def applyAction (config : Config) (session : Session) (qq : String)
    (outcomes : Nat → AttemptOutcome) : String :=
  if isValidQQ qq = false then
    formatReplyMessage session (validationErrorBody qq) config
  else
    match (requestWithRetry config.retry.retryTimes config.retry.retryDelay
        outcomes).result with
    | Except.ok result => formatReplyMessage session (classifyResponse qq result) config
    | Except.error _ => formatReplyMessage session catchBody config

/-! ## Log inspection command (log-buffer variant)

The 查看查号日志 command and its readAll helper appear only in the spec:
the variant carrying them is not among the source files. -/

/-- Rendering of a buffer, entries in insertion order separated by
newline characters. -/
def renderLogs : List String → String
  | [] => ""
  | [e] => e
  | e :: rest => e ++ "\n" ++ renderLogs rest

/-- Modelled from the spec: readAll of the Log Buffer (section 4.2); the
source of the variant carrying it is missing from src/.  Returns a
rendering of all current entries in insertion order, or the sentinel
no-entries message when the buffer is empty. -/
def readAll (logCache : List String) : String :=
  if logCache.isEmpty then "暂无查询日志" else renderLogs logCache

/-- Modelled from the spec: the action of the second command 查看查号日志
(section 6); it takes no arguments and returns the buffer contents or the
no-entries sentinel. -/
def viewLogsAction (logCache : List String) : String :=
  readAll logCache

/-! ## Helper lemmas -/

theorem string_append_assoc (a b c : String) : a ++ b ++ c = a ++ (b ++ c) :=
  String.ext (by simp)

theorem matchDigitsRange_iff : ∀ (cs : List Char) (lo hi : Nat),
    matchDigitsRange cs lo hi = true ↔
      lo ≤ cs.length ∧ cs.length ≤ hi ∧ ∀ c ∈ cs, c.isDigit = true
  | [], lo, hi => by
      simp only [matchDigitsRange, beq_iff_eq, List.length_nil, List.not_mem_nil,
        false_implies, implies_true, and_true]
      omega
  | c :: cs, lo, 0 => by
      simp only [matchDigitsRange, List.length_cons]
      constructor
      · intro h
        exact absurd h (by simp)
      · rintro ⟨h1, h2, h3⟩
        omega
  | c :: cs, lo, hi + 1 => by
      have ih := matchDigitsRange_iff cs (lo - 1) hi
      simp only [matchDigitsRange, Bool.and_eq_true, ih, List.length_cons,
        List.mem_cons, forall_eq_or_imp]
      constructor
      · rintro ⟨hd, h1, h2, h3⟩
        exact ⟨by omega, by omega, hd, h3⟩
      · rintro ⟨h1, h2, hd, h3⟩
        exact ⟨hd, by omega, by omega, h3⟩

theorem drop_append_left {α : Type} (l m : List α) (d : Nat) (h : d ≤ l.length) :
    l.drop d ++ m = (l ++ m).drop d := by
  induction l generalizing d with
  | nil =>
      simp only [List.length_nil, Nat.le_zero] at h
      subst h
      simp
  | cons x xs ih =>
      cases d with
      | zero => simp
      | succ d =>
          simp only [List.drop_succ_cons, List.cons_append]
          exact ih d (by simpa using h)

theorem addLogAndClean_eq_drop (ts c : String) (maxCount : Nat) (buf : List String) :
    addLogAndClean ts c maxCount buf
      = (buf ++ [formatLogEntry ts c]).drop (buf.length + 1 - maxCount) := by
  simp only [addLogAndClean]
  by_cases h : maxCount < (buf ++ [formatLogEntry ts c]).length
  · rw [if_pos h]
    congr 1
    simp only [List.length_append, List.length_cons, List.length_nil]
  · rw [if_neg h]
    simp only [List.length_append, List.length_cons, List.length_nil, Nat.not_lt] at h
    rw [show buf.length + 1 - maxCount = 0 from by omega, List.drop_zero]

theorem addLogAndClean_length_le (ts c : String) (maxCount : Nat) (buf : List String) :
    (addLogAndClean ts c maxCount buf).length ≤ maxCount := by
  rw [addLogAndClean_eq_drop]
  simp only [List.length_drop, List.length_append, List.length_cons, List.length_nil]
  omega

theorem addAll_eq_drop (maxCount : Nat) :
    ∀ (entries : List (String × String)) (buf : List String),
      buf.length ≤ maxCount →
      addAll maxCount buf entries
        = (buf ++ entries.map (fun e => formatLogEntry e.1 e.2)).drop
            (buf.length + entries.length - maxCount)
  | [], buf, h => by
      simp only [addAll, List.foldl_nil, List.map_nil, List.append_nil, List.length_nil,
        Nat.add_zero]
      rw [show buf.length - maxCount = 0 from by omega, List.drop_zero]
  | e :: rest, buf, h => by
      have hnew : (addLogAndClean e.1 e.2 maxCount buf).length ≤ maxCount :=
        addLogAndClean_length_le _ _ _ _
      have ih := addAll_eq_drop maxCount rest (addLogAndClean e.1 e.2 maxCount buf) hnew
      have hstep := addLogAndClean_eq_drop e.1 e.2 maxCount buf
      have hlen : (addLogAndClean e.1 e.2 maxCount buf).length
          = buf.length + 1 - (buf.length + 1 - maxCount) := by
        rw [hstep]
        simp only [List.length_drop, List.length_append, List.length_cons, List.length_nil]
      show addAll maxCount (addLogAndClean e.1 e.2 maxCount buf) rest = _
      rw [ih, hlen, hstep]
      rw [drop_append_left _ _ _ (by
        simp only [List.length_drop, List.length_append, List.length_cons, List.length_nil]
        omega)]
      rw [List.drop_drop, List.map_cons]
      rw [show buf ++ formatLogEntry e.1 e.2 :: List.map (fun x => formatLogEntry x.1 x.2) rest
            = buf ++ [formatLogEntry e.1 e.2] ++ List.map (fun x => formatLogEntry x.1 x.2) rest
          from by simp]
      congr 1
      simp only [List.length_cons]
      omega

theorem string_append_empty (s : String) : s ++ "" = s :=
  String.ext (by simp)

theorem renderLogs_mem_decomp : ∀ (l : List String), ∀ e ∈ l,
    ∃ u v, renderLogs l = u ++ (e ++ v)
  | [], e, he => absurd he (List.not_mem_nil e)
  | [x], e, he => by
      rcases List.mem_singleton.mp he with rfl
      refine ⟨"", "", ?_⟩
      rw [string_append_empty]
      rfl
  | x :: y :: rest, e, he => by
      rcases List.mem_cons.mp he with rfl | hmem
      · exact ⟨"", "\n" ++ renderLogs (y :: rest), by
          simp only [renderLogs, string_append_assoc]
          rfl⟩
      · obtain ⟨u, v, huv⟩ := renderLogs_mem_decomp (y :: rest) e hmem
        refine ⟨x ++ "\n" ++ u, v, ?_⟩
        simp only [renderLogs, huv, string_append_assoc]

theorem countAttempts_append (a b : List RetryEvent) :
    countAttempts (a ++ b) = countAttempts a + countAttempts b := by
  induction a with
  | nil => simp [countAttempts]
  | cons e rest ih => cases e <;> simp [countAttempts, ih, Nat.add_right_comm]

theorem runRetryAux_countAttempts (rt rd : Nat) (oc : Nat → AttemptOutcome) :
    ∀ (fuel attempt : Nat) (events : List RetryEvent),
      countAttempts (runRetryAux rt rd oc fuel attempt events).events
        ≤ countAttempts events + fuel
  | 0, attempt, events => by simp [runRetryAux]
  | fuel + 1, attempt, events => by
      cases hoc : oc attempt with
      | success r =>
          simp [runRetryAux, hoc, countAttempts_append, countAttempts]
      | failure st ec em =>
          by_cases hc : isRetryable st ec = false ∨ rt < attempt + 1
          · simp only [runRetryAux, hoc, if_pos hc]
            simp [countAttempts_append, countAttempts]
          · simp only [runRetryAux, hoc, if_neg hc]
            have ih := runRetryAux_countAttempts rt rd oc fuel (attempt + 1)
              (events ++ [RetryEvent.attempt attempt, RetryEvent.sleep rd])
            have heq : countAttempts
                (events ++ [RetryEvent.attempt attempt, RetryEvent.sleep rd])
                = countAttempts events + 1 := by
              simp [countAttempts_append, countAttempts]
            omega

theorem runRetryAux_result_pos (rt rd : Nat) (oc : Nat → AttemptOutcome) :
    ∀ (fuel attempt : Nat) (events : List RetryEvent),
      fuel + attempt = rt + 1 → 1 ≤ fuel →
      (∃ r, (runRetryAux rt rd oc fuel attempt events).result = Except.ok r) ∨
      (∃ st ecode emsg, (runRetryAux rt rd oc fuel attempt events).result
          = Except.error (ReqError.thrown st ecode emsg))
  | 0, attempt, events => by
      intro h1 h2
      omega
  | fuel + 1, attempt, events => by
      intro h1 h2
      cases hoc : oc attempt with
      | success r =>
          left
          exact ⟨r, by simp [runRetryAux, hoc]⟩
      | failure st ec em =>
          by_cases hc : isRetryable st ec = false ∨ rt < attempt + 1
          · right
            refine ⟨st, ec, em, ?_⟩
            simp only [runRetryAux, hoc, if_pos hc]
          · rw [not_or] at hc
            have hrec := runRetryAux_result_pos rt rd oc fuel (attempt + 1)
              (events ++ [RetryEvent.attempt attempt, RetryEvent.sleep rd])
              (by omega) (by omega)
            simpa [runRetryAux, hoc, if_neg (not_or.mpr hc)] using hrec

/-! ## Claim theorems -/

/-- C5: the identifier validator returns true for a string exactly when it
consists of 5 to 13 ASCII decimal digits (so no sign and no whitespace,
anchored at both ends); 4-digit strings are rejected, 5- and 13-digit
strings accepted, 14-digit strings rejected. -/
theorem claim_C5 :
    (∀ s : String, isValidQQ s = true ↔
      5 ≤ s.data.length ∧ s.data.length ≤ 13 ∧ ∀ c ∈ s.data, c.isDigit = true) ∧
    isValidQQ "1234" = false ∧
    isValidQQ "12345" = true ∧
    isValidQQ "1234567890123" = true ∧
    isValidQQ "12345678901234" = false := by
  refine ⟨fun s => ?_, by decide, by decide, by decide, by decide⟩
  exact matchDigitsRange_iff s.data 5 13

/-- C5 witness: a five-digit string is accepted by the validator. -/
theorem claim_C5_witness : isValidQQ "00000" = true :=
  (claim_C5.1 "00000").mpr (by decide)

/-- C8: in mention mode the formatter returns the body prefixed by the
mention-of-recipient marker followed by a line break (the carriage-return
character reference in src/src/index.ts, a newline character in
src/unnamed/part_000); in quote mode the body prefixed by the
quote-of-source-message marker; in normal mode the body unchanged. -/
theorem claim_C8 :
    ∀ (session : Session) (body : String) (api : ApiConfig) (rc : RetryConfig),
      formatReplyMessage session body ⟨api, ⟨ReplyMode.mention⟩, rc⟩
          = hAt session.userId ++ ("&#13;" ++ body) ∧
      formatReplyMessageLogVariant session body ReplyMode.mention
          = hAt session.userId ++ ("\n" ++ body) ∧
      formatReplyMessage session body ⟨api, ⟨ReplyMode.quote⟩, rc⟩
          = hQuote session.messageId ++ body ∧
      formatReplyMessageLogVariant session body ReplyMode.quote
          = hQuote session.messageId ++ body ∧
      formatReplyMessage session body ⟨api, ⟨ReplyMode.normal⟩, rc⟩ = body ∧
      formatReplyMessageLogVariant session body ReplyMode.normal = body := by
  intro s b api rc
  refine ⟨?_, ?_, rfl, rfl, rfl, rfl⟩
  · show hAt s.userId ++ "&#13;" ++ b = _
    exact string_append_assoc _ _ _
  · show hAt s.userId ++ "\n" ++ b = _
    exact string_append_assoc _ _ _

/-- C1: the code bug behind the transient-retry policy.  At a
network-level failure with no HTTP status whose error code is
ECONNREFUSED (neither ECONNRESET nor ETIMEDOUT), the code classifies the
failure as not retryable — because the absent status is first replaced by
the non-empty fallback string, so the truthiness test can never fire —
and requestWithRetry rethrows after a single attempt with no sleep, while
the spec policy (absent status is a retryable network-level failure)
classifies it as retryable. -/
theorem claim_C1 :
    isRetryable none (some "ECONNREFUSED") = false ∧
    specRetryableA none (some "ECONNREFUSED") = true ∧
    (requestWithRetry 2 1000 (fun _ =>
        AttemptOutcome.failure none (some "ECONNREFUSED") "connect ECONNREFUSED")).events
      = [RetryEvent.attempt 0] ∧
    (requestWithRetry 2 1000 (fun _ =>
        AttemptOutcome.failure none (some "ECONNREFUSED") "connect ECONNREFUSED")).result
      = Except.error (ReqError.thrown none (some "ECONNREFUSED") "connect ECONNREFUSED") := by
  refine ⟨rfl, rfl, rfl, rfl⟩

/-- C10: whenever the msg field of the parsed response is absent or
empty, the defaulting applied before the switch substitutes the fixed
text 无返回信息, so every classifier output coincides with the output on
a response carrying that default text as its msg. -/
theorem claim_C10 :
    ∀ (qq : String) (code : Int) (data : Option BanData),
      jsOr none "无返回信息" = "无返回信息" ∧
      jsOr (some "") "无返回信息" = "无返回信息" ∧
      classifyResponse qq ⟨code, none, data⟩
        = classifyResponse qq ⟨code, some "无返回信息", data⟩ ∧
      classifyResponse qq ⟨code, some "", data⟩
        = classifyResponse qq ⟨code, some "无返回信息", data⟩ := by
  intro qq code data
  refine ⟨rfl, rfl, ?_, ?_⟩ <;> simp [classifyResponse, jsOr]

/-- C2: the response classifier is total (it is a function on all integer
codes) and realizes the reference mapping: code 200 yields the success
message embedding both the defaulted msg and the defaulted data.banmsg;
each listed code 400, 401, 403, 404, 429, 500, 502, 503, 504 yields its
fixed message; every unlisted integer code yields the generic
unknown-code message embedding the raw code and the defaulted msg. -/
theorem claim_C2 :
    ∀ (qq : String) (msg : Option String) (data : Option BanData) (code : Int),
      classifyResponse qq ⟨200, msg, data⟩
        = "✅ 查询成功：" ++ jsOr msg "无返回信息"
            ++ "\n\n               📝 详细信息："
            ++ jsOr (data.bind BanData.banmsg) "无详细封禁信息" ∧
      classifyResponse qq ⟨400, msg, data⟩
        = "❌ 查询失败 [错误码400]：" ++ jsOr msg "无返回信息"
            ++ "（参数缺失，请检查配置）" ∧
      classifyResponse qq ⟨401, msg, data⟩
        = "🔑 API Token 无效或未授权 [401]：" ++ jsOr msg "无返回信息" ++ "并更新配置" ∧
      classifyResponse qq ⟨403, msg, data⟩
        = "🛑 请求被拒绝 [403]：可能因查询过于频繁或IP受限\n\n               ⏳ 建议稍后再试，或联系 API 提供方" ∧
      classifyResponse qq ⟨404, msg, data⟩
        = "❓ 未找到相关信息 [404]\n\n               📢 QQ " ++ qq
            ++ " 可能未绑定《英雄联盟》账号，或当前无封禁记录" ∧
      classifyResponse qq ⟨429, msg, data⟩
        = "📢 API免费额度使用完毕或账号会员已经过期，请充值后使用" ∧
      classifyResponse qq ⟨500, msg, data⟩
        = "🛠️ 服务器内部错误 [500]：" ++ jsOr msg "无返回信息"
            ++ "\n\n               📡 问题出在 API 服务端，请稍后再试" ∧
      classifyResponse qq ⟨502, msg, data⟩
        = "☁️ 服务暂时不可用 [502]：" ++ jsOr msg "无返回信息"
            ++ "\n\n               🔌 可能是 API 服务维护或超载，请稍后重试" ∧
      classifyResponse qq ⟨503, msg, data⟩
        = "☁️ 服务暂时不可用 [503]：" ++ jsOr msg "无返回信息"
            ++ "\n\n               🔌 可能是 API 服务维护或超载，请稍后重试" ∧
      classifyResponse qq ⟨504, msg, data⟩
        = "☁️ 服务暂时不可用 [504]：" ++ jsOr msg "无返回信息"
            ++ "\n\n               🔌 可能是 API 服务维护或超载，请稍后重试" ∧
      (code ∉ listedCodes →
        classifyResponse qq ⟨code, msg, data⟩
          = "❗ 收到未知响应码 [" ++ toString code ++ "]：" ++ jsOr msg "无返回信息") := by
  intro qq msg data code
  refine ⟨rfl, rfl, rfl, rfl, rfl, rfl, rfl, rfl, rfl, rfl, ?_⟩
  intro hcode
  simp only [listedCodes, List.mem_cons, List.not_mem_nil, or_false, not_or] at hcode
  obtain ⟨h200, h400, h401, h403, h404, h429, h500, h502, h503, h504⟩ := hcode
  simp only [classifyResponse, if_neg h200, if_neg h400, if_neg h401, if_neg h403,
    if_neg h404, if_neg h429, if_neg h500,
    if_neg (not_or.mpr ⟨h502, not_or.mpr ⟨h503, h504⟩⟩)]

/-- C2 witness: the unlisted code 999 with msg ok hits the default case. -/
theorem claim_C2_witness :
    ((999 : Int) ∉ listedCodes) ∧
    classifyResponse "12345" ⟨999, some "ok", none⟩
      = "❗ 收到未知响应码 [" ++ toString (999 : Int) ++ "]：" ++ jsOr (some "ok") "无返回信息" :=
  ⟨by decide, (claim_C2 "12345" (some "ok") none 999).2.2.2.2.2.2.2.2.2.2 (by decide)⟩

/-- C3: a single append through addLogAndClean never leaves the buffer
longer than maxCount, and eviction is FIFO: appending maxCount + 5
entries to the empty buffer leaves exactly maxCount entries, namely the
formatted images of the last maxCount appended entries in their original
insertion order. -/
theorem claim_C3 :
    (∀ (ts c : String) (maxCount : Nat) (buf : List String),
      (addLogAndClean ts c maxCount buf).length ≤ maxCount) ∧
    (∀ (maxCount : Nat) (entries : List (String × String)),
      entries.length = maxCount + 5 →
      addAll maxCount [] entries
          = (entries.map (fun e => formatLogEntry e.1 e.2)).drop 5 ∧
      (addAll maxCount [] entries).length = maxCount) := by
  constructor
  · exact fun ts c maxCount buf => addLogAndClean_length_le ts c maxCount buf
  · intro maxCount entries h
    have hall := addAll_eq_drop maxCount entries [] (by simp)
    simp only [List.nil_append, List.length_nil, Nat.zero_add] at hall
    constructor
    · rw [hall]
      congr 1
      omega
    · rw [hall]
      simp only [List.length_drop, List.length_map]
      omega

/-- C4: with retryTimes 2 and every attempt failing retryably, the run
makes exactly 3 attempts, sleeps retryDelay between attempts 1 and 2 and
between attempts 2 and 3 with no sleep after the final attempt (the event
trace is attempt, sleep, attempt, sleep, attempt), and propagates the
last attempt error; in general the number of attempts never exceeds
retryTimes + 1. -/
theorem claim_C4 :
    (∀ (retryDelay : Nat) (outcomes : Nat → AttemptOutcome),
      (∀ i, i < 3 → retryableFailureAt outcomes i) →
      ∃ st ecode emsg,
        outcomes 2 = AttemptOutcome.failure st ecode emsg ∧
        (requestWithRetry 2 retryDelay outcomes).events
          = [RetryEvent.attempt 0, RetryEvent.sleep retryDelay,
             RetryEvent.attempt 1, RetryEvent.sleep retryDelay,
             RetryEvent.attempt 2] ∧
        countAttempts (requestWithRetry 2 retryDelay outcomes).events = 3 ∧
        (requestWithRetry 2 retryDelay outcomes).result
          = Except.error (ReqError.thrown st ecode emsg)) ∧
    (∀ (retryTimes retryDelay : Nat) (outcomes : Nat → AttemptOutcome),
      countAttempts (requestWithRetry retryTimes retryDelay outcomes).events
        ≤ retryTimes + 1) := by
  constructor
  · intro rd oc h
    obtain ⟨st0, c0, m0, h0, r0⟩ := h 0 (by omega)
    obtain ⟨st1, c1, m1, h1, r1⟩ := h 1 (by omega)
    obtain ⟨st2, c2, m2, h2, r2⟩ := h 2 (by omega)
    refine ⟨st2, c2, m2, h2, ?_, ?_, ?_⟩ <;>
      simp [requestWithRetry, runRetryAux, h0, h1, h2, r0, r1, r2, countAttempts]
  · intro rt rd oc
    have hb := runRetryAux_countAttempts rt rd oc (rt + 1) 0 []
    simpa [countAttempts] using hb

/-- C4 witness: three consecutive 503 failures with retryTimes 2. -/
theorem claim_C4_witness :
    ∃ st ecode emsg,
      (fun _ => AttemptOutcome.failure (some 503) none "Service Unavailable") 2
        = AttemptOutcome.failure st ecode emsg ∧
      (requestWithRetry 2 1000
          (fun _ => AttemptOutcome.failure (some 503) none "Service Unavailable")).events
        = [RetryEvent.attempt 0, RetryEvent.sleep 1000,
           RetryEvent.attempt 1, RetryEvent.sleep 1000,
           RetryEvent.attempt 2] ∧
      countAttempts (requestWithRetry 2 1000
          (fun _ => AttemptOutcome.failure (some 503) none "Service Unavailable")).events
        = 3 ∧
      (requestWithRetry 2 1000
          (fun _ => AttemptOutcome.failure (some 503) none "Service Unavailable")).result
        = Except.error (ReqError.thrown st ecode emsg) :=
  claim_C4.1 1000 (fun _ => AttemptOutcome.failure (some 503) none "Service Unavailable")
    (fun _ _ => ⟨some 503, none, "Service Unavailable", rfl, rfl⟩)

/-- C9: the post-loop generic retry-exhausted failure is unreachable:
every run of requestWithRetry either returns a parsed response or
rethrows the error of some attempt from inside the loop body. -/
theorem claim_C9 :
    ∀ (retryTimes retryDelay : Nat) (outcomes : Nat → AttemptOutcome),
      (∃ r, (requestWithRetry retryTimes retryDelay outcomes).result = Except.ok r) ∨
      (∃ st ecode emsg,
        (requestWithRetry retryTimes retryDelay outcomes).result
          = Except.error (ReqError.thrown st ecode emsg)) :=
  fun rt rd oc => runRetryAux_result_pos rt rd oc (rt + 1) 0 [] (by omega) (by omega)

/-- C6: the 查封号 action is total over every identifier and every
behavior of the HTTP dependency: its value is always formatReplyMessage
applied to some body; a validation failure yields the inline validation
message, an error propagated out of the request pipeline is caught and
yields the fixed catch message, and a parsed response yields the
classifier output. -/
theorem claim_C6 :
    ∀ (config : Config) (session : Session) (qq : String)
      (outcomes : Nat → AttemptOutcome),
      (∃ body, applyAction config session qq outcomes
          = formatReplyMessage session body config) ∧
      (isValidQQ qq = false →
        applyAction config session qq outcomes
          = formatReplyMessage session (validationErrorBody qq) config) ∧
      (∀ e, isValidQQ qq = true →
        (requestWithRetry config.retry.retryTimes config.retry.retryDelay
            outcomes).result = Except.error e →
        applyAction config session qq outcomes
          = formatReplyMessage session catchBody config) ∧
      (∀ r, isValidQQ qq = true →
        (requestWithRetry config.retry.retryTimes config.retry.retryDelay
            outcomes).result = Except.ok r →
        applyAction config session qq outcomes
          = formatReplyMessage session (classifyResponse qq r) config) := by
  intro config s qq oc
  refine ⟨?_, ?_, ?_, ?_⟩
  · by_cases hv : isValidQQ qq = false
    · exact ⟨validationErrorBody qq, by simp [applyAction, hv]⟩
    · cases hres : (requestWithRetry config.retry.retryTimes config.retry.retryDelay
          oc).result with
      | ok r => exact ⟨classifyResponse qq r, by simp [applyAction, hv, hres]⟩
      | error e => exact ⟨catchBody, by simp [applyAction, hv, hres]⟩
  · intro hv
    simp [applyAction, hv]
  · intro e hv hres
    simp [applyAction, hv, hres]
  · intro r hv hres
    simp [applyAction, hv, hres]

/-- C6 witness: a malformed identifier is answered inline with the
validation message, and with a valid identifier a non-retryable failure
of every attempt is caught and answered with the catch message. -/
theorem claim_C6_witness :
    (isValidQQ "abc" = false ∧
      applyAction ⟨⟨"url", "token"⟩, ⟨ReplyMode.normal⟩, ⟨2, 1000⟩⟩ ⟨"9", "8"⟩ "abc"
          (fun _ => AttemptOutcome.success ⟨200, some "ok", none⟩)
        = formatReplyMessage ⟨"9", "8"⟩ (validationErrorBody "abc")
            ⟨⟨"url", "token"⟩, ⟨ReplyMode.normal⟩, ⟨2, 1000⟩⟩) ∧
    (isValidQQ "12345" = true ∧
      applyAction ⟨⟨"url", "token"⟩, ⟨ReplyMode.normal⟩, ⟨2, 1000⟩⟩ ⟨"9", "8"⟩ "12345"
          (fun _ => AttemptOutcome.failure (some 400) none "Bad Request")
        = formatReplyMessage ⟨"9", "8"⟩ catchBody
            ⟨⟨"url", "token"⟩, ⟨ReplyMode.normal⟩, ⟨2, 1000⟩⟩) :=
  ⟨⟨by decide,
    (claim_C6 ⟨⟨"url", "token"⟩, ⟨ReplyMode.normal⟩, ⟨2, 1000⟩⟩ ⟨"9", "8"⟩ "abc"
      (fun _ => AttemptOutcome.success ⟨200, some "ok", none⟩)).2.1 (by decide)⟩,
   ⟨by decide,
    (claim_C6 ⟨⟨"url", "token"⟩, ⟨ReplyMode.normal⟩, ⟨2, 1000⟩⟩ ⟨"9", "8"⟩ "12345"
      (fun _ => AttemptOutcome.failure (some 400) none "Bad Request")).2.2.1
      (ReqError.thrown (some 400) none "Bad Request") (by decide) rfl⟩⟩

/-- C3 witness: with maxCount 2 and 7 appended entries, the buffer keeps
the formatted images of the last two entries, in order. -/
theorem claim_C3_witness :
    (([("t1", "a"), ("t2", "b"), ("t3", "c"), ("t4", "d"), ("t5", "e"),
        ("t6", "f"), ("t7", "g")] : List (String × String)).length = 2 + 5) ∧
    addAll 2 [] [("t1", "a"), ("t2", "b"), ("t3", "c"), ("t4", "d"), ("t5", "e"),
        ("t6", "f"), ("t7", "g")]
      = (([("t1", "a"), ("t2", "b"), ("t3", "c"), ("t4", "d"), ("t5", "e"),
          ("t6", "f"), ("t7", "g")] : List (String × String)).map
            (fun e => formatLogEntry e.1 e.2)).drop 5 :=
  ⟨rfl,
    (claim_C3.2 2 [("t1", "a"), ("t2", "b"), ("t3", "c"), ("t4", "d"), ("t5", "e"),
        ("t6", "f"), ("t7", "g")] rfl).1⟩

/-- C7: the log-buffer variant second command 查看查号日志 (modelled from
the spec, its source being absent from src/) takes only the buffer and
returns a human-readable rendering of all current entries when the buffer
is non-empty — the entries joined in insertion order, each one occurring
in the output — and the sentinel no-entries message when the buffer is
empty. -/
theorem claim_C7 :
    viewLogsAction [] = "暂无查询日志" ∧
    (∀ logCache : List String, logCache ≠ [] →
      viewLogsAction logCache = renderLogs logCache) ∧
    (∀ x : String, renderLogs [x] = x) ∧
    (∀ (x y : String) (rest : List String),
      renderLogs (x :: y :: rest) = x ++ "\n" ++ renderLogs (y :: rest)) ∧
    (∀ logCache : List String, ∀ e ∈ logCache,
      ∃ u v, viewLogsAction logCache = u ++ (e ++ v)) := by
  refine ⟨rfl, ?_, ?_, ?_, ?_⟩
  · intro l hne
    simp [viewLogsAction, readAll, hne]
  · intro x
    rfl
  · intro x y rest
    simp only [renderLogs]
  · intro l e he
    have hne : l.isEmpty = false := by
      cases l with
      | nil => exact absurd he (List.not_mem_nil e)
      | cons a t => rfl
    obtain ⟨u, v, huv⟩ := renderLogs_mem_decomp l e he
    exact ⟨u, v, by simp only [viewLogsAction, readAll, hne, Bool.false_eq_true,
      if_false, huv]⟩

/-- C7 witness: a two-entry buffer is rendered as the two entries joined
by a newline, and the first entry occurs in the output. -/
theorem claim_C7_witness :
    viewLogsAction ["log one", "log two"] = renderLogs ["log one", "log two"] ∧
    (∃ u v, viewLogsAction ["log one", "log two"] = u ++ ("log one" ++ v)) :=
  ⟨claim_C7.2.1 ["log one", "log two"] (by simp),
   claim_C7.2.2.2.2 ["log one", "log two"] "log one" (by simp)⟩

end LolBanInfo
